import Mathlib

/-!
Shallow embedding of `src/main.rs` of the `compress_img` repository.

The program scans a folder for jpg/jpeg/png files, re-encodes each in
place (JPEG at a user quality, PNG losslessly) and reports savings.
External library calls (the `image` codec crate, `walkdir`, `std::fs`)
are modelled by an explicit environment record `Env` carrying the
outcome of each call; the control flow of the Rust functions is
translated statement by statement.  `f64` arithmetic is modelled by `ℚ`;
the concrete values the claims speak about (e.g. 40.00 %) are exactly
representable in `f64`, where every operation involved is exact.
-/

namespace CompressImg

/-- Content-detected image format, as returned by
`ImageReader::with_guessed_format` / `reader.format()` in the `image`
crate.  All formats other than JPEG and PNG reach the same `other` match
arm in `compress_image`, so they are modelled by one constructor
carrying the format's debug name. -/
inductive ImageFormat
  | Jpeg
  | Png
  | Other (name : String)
deriving DecidableEq, Repr

/-- Model of `image::codecs::png::CompressionType` (variants used or passable). -/
inductive CompressionType
  | Default
  | Fast
  | Best
deriving DecidableEq, Repr

/-- Model of `image::codecs::png::FilterType`. -/
inductive FilterType
  | NoFilter
  | Sub
  | Up
  | Avg
  | Paeth
  | Adaptive
deriving DecidableEq, Repr

/-- Rust `struct CompressionStats` with fields `original_size`, `new_size` (u64). -/
structure CompressionStats where
  original_size : Nat
  new_size : Nat
deriving DecidableEq, Repr

/-- The distinct error exits of `compress_image` (the Rust code builds
`anyhow` string errors; each constructor corresponds to one `?`/`return`
site, `unsupported` carrying the offending format's name). -/
inductive CompressError
  | openFailed
  | guessFailed
  | noFormat
  | decodeFailed
  | encodeFailed
  | unsupported (name : String)
  | metadataFailed
  | writeFailed
deriving DecidableEq, Repr

/-- Environment for one `compress_image` call: the outcome of every
external call it makes, in program order.  `format` is the
content-guessed format (`with_guessed_format` inspects bytes, never the
file name); note `compress_image` receives no extension at all. -/
structure Env where
  /-- Whether `ImageReader::open` succeeds. -/
  openOk : Bool
  /-- the I/O inside `with_guessed_format` succeeds. -/
  guessOk : Bool
  /-- Result of `reader.format()` after guessing. -/
  format : Option ImageFormat
  /-- Whether `reader.decode()` succeeds. -/
  decodeOk : Bool
  /-- Outcome of `JpegEncoder::new_with_quality(_, q).encode_image(&image)`:
  the encoded bytes, or `none` on encode failure. -/
  jpegEncode : Nat → Option (List Nat)
  /-- Outcome of `PngEncoder::new_with_quality(_, c, f).write_image(...)` on the
  decoded image converted to RGBA8. -/
  pngEncode : CompressionType → FilterType → Option (List Nat)
  /-- Result of `fs::metadata(path)?.len()`. -/
  metadataLen : Option Nat
  /-- Whether `fs::write(path, &buffer)` succeeds. -/
  writeOk : Bool

/-- Which encoder `compress_image` constructed, with its arguments. -/
inductive EncoderInvocation
  | jpeg (quality : Nat)
  | png (compression : CompressionType) (filter : FilterType)
deriving DecidableEq, Repr

/-- Observable outcome of one `compress_image` call: its return value,
the encoder it constructed (if control reached the `match format`
arms that build one), and the bytes passed to `fs::write` if that call
was made (`none` = the file was never written to). -/
structure CompressOutcome where
  result : Except CompressError CompressionStats
  encoder : Option EncoderInvocation
  writeAttempted : Option (List Nat)
deriving Repr

/-- Tail of `compress_image` after a successful encode: read the
original size with `fs::metadata`, overwrite the file with `fs::write`,
return both sizes. -/
def finishWrite (env : Env) (enc : EncoderInvocation) (buf : List Nat) :
    CompressOutcome :=
  match env.metadataLen with
  | none => ⟨.error .metadataFailed, some enc, none⟩
  | some orig =>
    if env.writeOk then
      ⟨.ok ⟨orig, buf.length⟩, some enc, some buf⟩
    else
      ⟨.error .writeFailed, some enc, some buf⟩

/-- Rust `fn compress_image(path: &Path, quality: u8) -> Result<CompressionStats>`,
translated arm by arm.  The JPEG encoder is built with
`quality.max(1)`; the PNG encoder with `CompressionType::Best` and
`FilterType::Adaptive`; any other detected format returns the
"unsupported" error before `fs::metadata` or `fs::write` is reached. -/
def compress_image (env : Env) (quality : Nat) : CompressOutcome :=
  if !env.openOk then ⟨.error .openFailed, none, none⟩
  else if !env.guessOk then ⟨.error .guessFailed, none, none⟩
  else
    match env.format with
    | none => ⟨.error .noFormat, none, none⟩
    | some fmt =>
      if !env.decodeOk then ⟨.error .decodeFailed, none, none⟩
      else
        match fmt with
        | .Jpeg =>
          let q := max quality 1
          match env.jpegEncode q with
          | none => ⟨.error .encodeFailed, some (.jpeg q), none⟩
          | some buf => finishWrite env (.jpeg q) buf
        | .Png =>
          match env.pngEncode .Best .Adaptive with
          | none => ⟨.error .encodeFailed, some (.png .Best .Adaptive), none⟩
          | some buf => finishWrite env (.png .Best .Adaptive) buf
        | .Other n => ⟨.error (.unsupported n), none, none⟩

/-- A filesystem path as `is_supported_image` sees it: its display
string and the result of `path.extension().and_then(|e| e.to_str())`
(`none` covers both "no extension" and "extension not valid UTF-8"). -/
structure FsPath where
  display : String
  ext : Option String
deriving DecidableEq, Repr

/-- Rust's `char::to_ascii_lowercase`: shift `A`–`Z` (code points 65–90)
down by 32, leave every other character unchanged. -/
def asciiToLower (c : Char) : Char :=
  if 65 ≤ c.toNat ∧ c.toNat ≤ 90 then Char.ofNat (c.toNat + 32) else c

/-- Rust's `str::to_ascii_lowercase`, character by character. -/
def asciiLower (s : String) : String := ⟨s.data.map asciiToLower⟩

/-- Rust `fn is_supported_image(path: &Path) -> bool`: the extension,
ASCII-lowercased, must be `jpg`, `jpeg` or `png`. -/
def is_supported_image (path : FsPath) : Bool :=
  match path.ext with
  | none => false
  | some e =>
    match asciiLower e with
    | "jpg" | "jpeg" | "png" => true
    | _ => false

/-- One `walkdir` entry: `e.file_type().is_file()` and `e.path()`. -/
structure DirEntry where
  isFile : Bool
  path : FsPath
deriving DecidableEq, Repr

/-- One line appended to `log_builder`, with the data the Rust `format!`
call interpolates (the textual `{:.2}` rendering is presentation). -/
inductive LogLine
  | walkError (msg : String)
  | success (path : String) (origKB newKB pct : ℚ)
  | failure (path : String) (err : CompressError)
deriving DecidableEq, Repr

/-- Rust `fn bytes_to_kb(bytes: u64) -> f64`. -/
def bytes_to_kb (bytes : Nat) : ℚ := (bytes : ℚ) / 1024

/-- Rust `fn bytes_to_mb(bytes: u64) -> f64`. -/
def bytes_to_mb (bytes : Nat) : ℚ := (bytes : ℚ) / (1024 * 1024)

/-- Rust `fn savings_percent(before: u64, after: u64) -> f64`: `0.0` when
`before == 0`, otherwise `100.0 * (before - after) / before`. -/
def savings_percent (before after : Nat) : ℚ :=
  if before = 0 then 0
  else 100 * ((before : ℚ) - (after : ℚ)) / (before : ℚ)

/-- The final status line of `process_folder`: the saved branch when
`total_saved >= 0`, otherwise the "文件总体增大" (increased) branch with
`(-total_saved) as u64` megabytes. -/
inductive FinalStatus
  | saved (mb : ℚ)
  | increased (mb : ℚ)
deriving DecidableEq, Repr

/-- The `if total_saved >= 0 { .. } else { .. }` choosing the final
status text in `process_folder`. -/
def final_status (total_saved : Int) : FinalStatus :=
  if 0 ≤ total_saved then .saved (bytes_to_mb total_saved.toNat)
  else .increased (bytes_to_mb (-total_saved).toNat)

/-- The scan loop of `process_folder`: for each `walkdir` entry, an `Ok`
regular file passing `is_supported_image` is pushed onto `files`; an
`Err` appends a "遍历时出错" line to `log_builder`; everything else is
skipped.  Returns (files, scan log) in traversal order. -/
def scanWalk : List (Except String DirEntry) → List FsPath × List LogLine
  | [] => ([], [])
  | .ok e :: rest =>
    let r := scanWalk rest
    if e.isFile && is_supported_image e.path then (e.path :: r.1, r.2)
    else r
  | .error m :: rest =>
    let r := scanWalk rest
    (r.1, .walkError m :: r.2)

/-- One iteration of the per-file loop of `process_folder`, acting on
the running `(total_saved, log_builder)` state: on `Ok(stats)` it adds
`stats.original_size.saturating_sub(stats.new_size) as i64` (Lean's
truncated `Nat` subtraction) and appends the "✔" line; on `Err` it
appends the "✖ .. | 失败: .." line and leaves the total unchanged. -/
def loopStep (st : Int × List LogLine) (item : FsPath × CompressOutcome) :
    Int × List LogLine :=
  match item.2.result with
  | .ok stats =>
    (st.1 + ((stats.original_size - stats.new_size : Nat) : Int),
     st.2 ++ [.success item.1.display (bytes_to_kb stats.original_size)
        (bytes_to_kb stats.new_size)
        (savings_percent stats.original_size stats.new_size)])
  | .error e =>
    (st.1, st.2 ++ [.failure item.1.display e])

/-- Fatal errors of `process_folder`: root path does not exist
("路径不存在"), or exists but is not a directory ("选择的路径不是文件夹"). -/
inductive FatalError
  | notFound
  | notDir
deriving DecidableEq, Repr

/-- The world one `process_folder` run observes: the two root checks,
the `walkdir` iterator's entries, and per file the environment its
`compress_image` call runs in. -/
structure World where
  rootExists : Bool
  rootIsDir : Bool
  entries : List (Except String DirEntry)
  fileEnv : FsPath → Env

/-- Observable outcome of a non-fatal `process_folder` run: the total
posted to `set_total_files`, each file's `compress_image` outcome, the
final `total_saved`, the final status line (`none` when the zero-files
early return skips it), whether `set_busy(false)` was posted, and the
final `log_builder`. -/
structure RunResult where
  totalReported : Nat
  outcomes : List (FsPath × CompressOutcome)
  totalSaved : Int
  finalStatus : Option FinalStatus
  busyCleared : Bool
  log : List LogLine
deriving Repr

/-- Rust `fn process_folder(ui, folder, quality) -> Result<()>`: the two root
checks (each an early `Err` before any entry is read), the scan, the
zero-files early return (posting `set_busy(false)`), the sequential
per-file loop, and the final status post (which also clears busy). -/
def process_folder (w : World) (quality : Nat) :
    Except FatalError RunResult :=
  if !w.rootExists then .error .notFound
  else if !w.rootIsDir then .error .notDir
  else
    let scanned := scanWalk w.entries
    let total := scanned.1.length
    if total = 0 then
      .ok { totalReported := 0, outcomes := [], totalSaved := 0,
            finalStatus := none, busyCleared := true, log := scanned.2 }
    else
      let outcomes :=
        scanned.1.map (fun p => (p, compress_image (w.fileEnv p) quality))
      let final := outcomes.foldl loopStep (0, scanned.2)
      .ok { totalReported := total, outcomes := outcomes,
            totalSaved := final.1,
            finalStatus := some (final_status final.1),
            busyCleared := true, log := final.2 }

/-! ### Helper lemmas -/

theorem loopStep_fst_le (st : Int × List LogLine)
    (x : FsPath × CompressOutcome) : st.1 ≤ (loopStep st x).1 := by
  unfold loopStep
  cases x.2.result with
  | ok stats =>
    simp only
    exact le_add_of_nonneg_right (Int.ofNat_nonneg _)
  | error e => simp

theorem foldl_loopStep_fst_le (l : List (FsPath × CompressOutcome))
    (st : Int × List LogLine) : st.1 ≤ (List.foldl loopStep st l).1 := by
  induction l generalizing st with
  | nil => simp
  | cons x xs ih =>
    calc st.1 ≤ (loopStep st x).1 := loopStep_fst_le st x
    _ ≤ (List.foldl loopStep (loopStep st x) xs).1 := ih _
    _ = (List.foldl loopStep st (x :: xs)).1 := by simp [List.foldl]

theorem foldl_loopStep_log_length (l : List (FsPath × CompressOutcome))
    (st : Int × List LogLine) :
    (List.foldl loopStep st l).2.length = st.2.length + l.length := by
  induction l generalizing st with
  | nil => simp
  | cons x xs ih =>
    have hstep : (loopStep st x).2.length = st.2.length + 1 := by
      unfold loopStep
      cases x.2.result <;> simp
    simp only [List.foldl, List.length_cons]
    rw [ih (loopStep st x), hstep]
    omega

theorem scanWalk_cons_ok (e : DirEntry) (rest : List (Except String DirEntry)) :
    scanWalk (.ok e :: rest) =
      if e.isFile && is_supported_image e.path then
        (e.path :: (scanWalk rest).1, (scanWalk rest).2)
      else scanWalk rest := rfl

theorem scanWalk_cons_err (m : String) (rest : List (Except String DirEntry)) :
    scanWalk (.error m :: rest) =
      ((scanWalk rest).1, .walkError m :: (scanWalk rest).2) := rfl

theorem scanWalk_mem (entries : List (Except String DirEntry)) (p : FsPath) :
    p ∈ (scanWalk entries).1 ↔
      ∃ e : DirEntry, Except.ok e ∈ entries ∧ e.isFile = true ∧
        is_supported_image e.path = true ∧ e.path = p := by
  induction entries with
  | nil => simp [scanWalk]
  | cons x rest ih =>
    cases x with
    | ok e =>
      rw [scanWalk_cons_ok]
      by_cases h : (e.isFile && is_supported_image e.path) = true
      · rw [if_pos h]
        rw [Bool.and_eq_true] at h
        constructor
        · intro hp
          rcases List.mem_cons.mp hp with rfl | hp
          · exact ⟨e, List.mem_cons_self _ _, h.1, h.2, rfl⟩
          · rcases ih.mp hp with ⟨d, hd, h1, h2, h3⟩
            exact ⟨d, List.mem_cons_of_mem _ hd, h1, h2, h3⟩
        · rintro ⟨d, hd, h1, h2, h3⟩
          rcases List.mem_cons.mp hd with he | hd
          · injection he with he2
            subst he2
            rw [← h3]
            exact List.mem_cons_self _ _
          · exact List.mem_cons.mpr (Or.inr (ih.mpr ⟨d, hd, h1, h2, h3⟩))
      · rw [if_neg h]
        constructor
        · intro hp
          rcases ih.mp hp with ⟨d, hd, h1, h2, h3⟩
          exact ⟨d, List.mem_cons_of_mem _ hd, h1, h2, h3⟩
        · rintro ⟨d, hd, h1, h2, h3⟩
          rcases List.mem_cons.mp hd with he | hd
          · injection he with he2
            subst he2
            exact absurd (by simp [h1, h2]) h
          · exact ih.mpr ⟨d, hd, h1, h2, h3⟩
    | error m =>
      rw [scanWalk_cons_err]
      constructor
      · intro hp
        rcases ih.mp hp with ⟨d, hd, h1, h2, h3⟩
        exact ⟨d, List.mem_cons_of_mem _ hd, h1, h2, h3⟩
      · rintro ⟨d, hd, h1, h2, h3⟩
        rcases List.mem_cons.mp hd with he | hd
        · exact absurd he (by simp)
        · exact ih.mpr ⟨d, hd, h1, h2, h3⟩

theorem scanWalk_log (entries : List (Except String DirEntry)) :
    (scanWalk entries).2 = entries.filterMap (fun x =>
      match x with
      | .error m => some (LogLine.walkError m)
      | .ok _ => none) := by
  induction entries with
  | nil => simp [scanWalk]
  | cons x rest ih =>
    cases x with
    | ok e =>
      rw [scanWalk_cons_ok]
      by_cases h : (e.isFile && is_supported_image e.path) = true
      · rw [if_pos h]
        simpa using ih
      · rw [if_neg h]
        simpa using ih
    | error m =>
      rw [scanWalk_cons_err]
      simpa using ih

theorem scanWalk_skip_error (pre : List (Except String DirEntry)) (m : String)
    (post : List (Except String DirEntry)) :
    (scanWalk (pre ++ .error m :: post)).1 = (scanWalk (pre ++ post)).1 := by
  induction pre with
  | nil => rfl
  | cons x rest ih =>
    cases x with
    | ok e =>
      rw [List.cons_append, List.cons_append, scanWalk_cons_ok, scanWalk_cons_ok]
      by_cases h : (e.isFile && is_supported_image e.path) = true
      · rw [if_pos h, if_pos h]
        simpa using ih
      · rw [if_neg h, if_neg h]
        exact ih
    | error m2 =>
      rw [List.cons_append, List.cons_append, scanWalk_cons_err, scanWalk_cons_err]
      exact ih

theorem finishWrite_encoder (env : Env) (enc : EncoderInvocation)
    (buf : List Nat) : (finishWrite env enc buf).encoder = some enc := by
  unfold finishWrite
  cases env.metadataLen with
  | none => rfl
  | some orig =>
    by_cases h : env.writeOk = true <;> simp [h]

theorem compress_image_jpeg (env : Env) (q : Nat)
    (ho : env.openOk = true) (hg : env.guessOk = true)
    (hd : env.decodeOk = true) (hf : env.format = some .Jpeg) :
    compress_image env q =
      match env.jpegEncode (max q 1) with
      | none => ⟨.error .encodeFailed, some (.jpeg (max q 1)), none⟩
      | some buf => finishWrite env (.jpeg (max q 1)) buf := by
  unfold compress_image
  rw [ho, hg, hd, hf]
  rfl

theorem compress_image_png (env : Env) (q : Nat)
    (ho : env.openOk = true) (hg : env.guessOk = true)
    (hd : env.decodeOk = true) (hf : env.format = some .Png) :
    compress_image env q =
      match env.pngEncode .Best .Adaptive with
      | none => ⟨.error .encodeFailed, some (.png .Best .Adaptive), none⟩
      | some buf => finishWrite env (.png .Best .Adaptive) buf := by
  unfold compress_image
  rw [ho, hg, hd, hf]
  rfl

theorem compress_image_other (env : Env) (q : Nat) (n : String)
    (ho : env.openOk = true) (hg : env.guessOk = true)
    (hd : env.decodeOk = true) (hf : env.format = some (.Other n)) :
    compress_image env q = ⟨.error (.unsupported n), none, none⟩ := by
  unfold compress_image
  rw [ho, hg, hd, hf]
  rfl

/-- Sample environment for a content-detected JPEG file where every
external call succeeds. -/
def jpegSampleEnv : Env :=
  { openOk := true, guessOk := true, format := some .Jpeg, decodeOk := true,
    jpegEncode := fun _ => some [7, 7], pngEncode := fun _ _ => some [7],
    metadataLen := some 100, writeOk := true }

/-- Same as `jpegSampleEnv` with the content detected as PNG. -/
def pngSampleEnv : Env := { jpegSampleEnv with format := some .Png }

/-- Same as `jpegSampleEnv` with the content detected as a GIF. -/
def gifSampleEnv : Env :=
  { jpegSampleEnv with format := some (.Other "Gif") }

/-- The candidate file list of a run. -/
def scanFiles (w : World) : List FsPath := (scanWalk w.entries).1

/-- The walk-error log accumulated by the scan. -/
def scanLog (w : World) : List LogLine := (scanWalk w.entries).2

/-- The per-file `compress_image` outcomes of a run. -/
def runOutcomes (w : World) (q : Nat) : List (FsPath × CompressOutcome) :=
  (scanFiles w).map (fun p => (p, compress_image (w.fileEnv p) q))

/-- The `(total_saved, log_builder)` state after the per-file loop. -/
def runFold (w : World) (q : Nat) : Int × List LogLine :=
  (runOutcomes w q).foldl loopStep (0, scanLog w)

/-- The run result of the zero-files early return. -/
def zeroRun (w : World) : RunResult :=
  { totalReported := 0, outcomes := [], totalSaved := 0,
    finalStatus := none, busyCleared := true, log := scanLog w }

/-- The run result of a run that enters the per-file loop. -/
def mainRun (w : World) (q : Nat) : RunResult :=
  { totalReported := (scanFiles w).length, outcomes := runOutcomes w q,
    totalSaved := (runFold w q).1,
    finalStatus := some (final_status (runFold w q).1),
    busyCleared := true, log := (runFold w q).2 }

theorem process_folder_eq (w : World) (q : Nat) :
    process_folder w q =
      if w.rootExists = false then .error .notFound
      else if w.rootIsDir = false then .error .notDir
      else if (scanFiles w).length = 0 then .ok (zeroRun w)
      else .ok (mainRun w q) := by
  unfold process_folder
  cases hre : w.rootExists with
  | false => simp
  | true =>
    cases hrd : w.rootIsDir with
    | false => simp
    | true =>
      simp only [Bool.not_true, Bool.false_eq_true, if_false]
      by_cases h0 : (scanFiles w).length = 0
      · rw [if_pos (by exact h0), if_pos h0]
        rfl
      · rw [if_neg (by exact h0), if_neg h0]
        rfl

/-! ### Claim theorems -/

/-- C1: `compress_image` dispatches on the content-detected format (its
`Env` carries only the guessed format; no extension reaches it): a
detected JPEG builds the JPEG encoder at the given quality (the code's
`quality.max(1)` equals it since the caller clamps quality to 1–100)
and on success writes exactly its output; a detected PNG builds the PNG
encoder with `CompressionType::Best` and `FilterType::Adaptive`; any
other detected format returns the "unsupported" error with no write to
the file. -/
theorem C1_format_dispatch (env : Env) (q : Nat) (hq : 1 ≤ q)
    (ho : env.openOk = true) (hg : env.guessOk = true)
    (hd : env.decodeOk = true) :
    (env.format = some .Jpeg →
      (compress_image env q).encoder = some (.jpeg q)) ∧
    (env.format = some .Jpeg → ∀ buf, env.jpegEncode q = some buf →
      ∀ m, env.metadataLen = some m → env.writeOk = true →
      compress_image env q =
        ⟨.ok ⟨m, buf.length⟩, some (.jpeg q), some buf⟩) ∧
    (env.format = some .Png →
      (compress_image env q).encoder = some (.png .Best .Adaptive)) ∧
    (∀ n, env.format = some (.Other n) →
      (compress_image env q).result = .error (.unsupported n) ∧
      (compress_image env q).writeAttempted = none) := by
  have hmax : max q 1 = q := Nat.max_eq_left hq
  refine ⟨?_, ?_, ?_, ?_⟩
  · intro hf
    rw [compress_image_jpeg env q ho hg hd hf,
      show (max q 1) = q from hmax]
    cases hbuf : env.jpegEncode q with
    | none => simp [hbuf]
    | some buf => simp [hbuf, finishWrite_encoder]
  · intro hf buf hbuf m hm hw
    rw [compress_image_jpeg env q ho hg hd hf,
      show (max q 1) = q from hmax, hbuf]
    simp [finishWrite, hm, hw]
  · intro hf
    rw [compress_image_png env q ho hg hd hf]
    cases hbuf : env.pngEncode .Best .Adaptive with
    | none => simp [hbuf]
    | some buf => simp [hbuf, finishWrite_encoder]
  · intro n hf
    rw [compress_image_other env q n ho hg hd hf]
    exact ⟨rfl, rfl⟩

/-- Witness for C1 at concrete environments: a JPEG env at quality 80,
a PNG env, and a GIF env. -/
theorem C1_format_dispatch_witness :
    (compress_image jpegSampleEnv 80).encoder = some (.jpeg 80) ∧
    compress_image jpegSampleEnv 80 =
      ⟨.ok ⟨100, 2⟩, some (.jpeg 80), some [7, 7]⟩ ∧
    (compress_image pngSampleEnv 80).encoder =
      some (.png .Best .Adaptive) ∧
    (compress_image gifSampleEnv 80).result =
      .error (.unsupported "Gif") ∧
    (compress_image gifSampleEnv 80).writeAttempted = none :=
  ⟨(C1_format_dispatch jpegSampleEnv 80 (by decide) rfl rfl rfl).1 rfl,
   (C1_format_dispatch jpegSampleEnv 80 (by decide) rfl rfl rfl).2.1
     rfl [7, 7] rfl 100 rfl rfl,
   (C1_format_dispatch pngSampleEnv 80 (by decide) rfl rfl rfl).2.2.1 rfl,
   ((C1_format_dispatch gifSampleEnv 80 (by decide) rfl rfl rfl).2.2.2
     "Gif" rfl).1,
   ((C1_format_dispatch gifSampleEnv 80 (by decide) rfl rfl rfl).2.2.2
     "Gif" rfl).2⟩

theorem is_supported_image_iff (p : FsPath) :
    is_supported_image p = true ↔
      ∃ s, p.ext = some s ∧
        (asciiLower s = "jpg" ∨ asciiLower s = "jpeg" ∨
         asciiLower s = "png") := by
  obtain ⟨disp, ext⟩ := p
  cases ext with
  | none => simp [is_supported_image]
  | some e =>
    simp only [is_supported_image, Option.some.injEq]
    constructor
    · intro h
      refine ⟨e, rfl, ?_⟩
      split at h
      · exact Or.inl (by assumption)
      · exact Or.inr (Or.inl (by assumption))
      · exact Or.inr (Or.inr (by assumption))
      · cases h
    · rintro ⟨s, rfl, h⟩
      rcases h with h | h | h <;> rw [h] <;> decide

/-- Two scan entries: an unsupported `c.txt` and a supported `b.PnG`. -/
def sampleEntries : List (Except String DirEntry) :=
  [.ok ⟨true, ⟨"c.txt", some "txt"⟩⟩, .ok ⟨true, ⟨"b.PnG", some "PnG"⟩⟩]

/-- Sample world: an existing directory holding one regular `a.jpg` file
whose content is a JPEG that re-encodes successfully. -/
def sampleWorld : World :=
  { rootExists := true, rootIsDir := true,
    entries := [.ok ⟨true, ⟨"a.jpg", some "jpg"⟩⟩],
    fileEnv := fun _ => jpegSampleEnv }

/-- The run result `process_folder` produces on `sampleWorld`. -/
def sampleRun : RunResult :=
  (process_folder sampleWorld 80).toOption.getD (zeroRun sampleWorld)

/-- C2: the scanner's filter accepts a path exactly when its extension,
ASCII-lowercased, is `jpg`, `jpeg` or `png`; and the scan's candidate
list contains exactly the paths of the `Ok` regular-file entries passing
that filter, wherever they occur in the traversal. -/
theorem C2_scanner_filter :
    (∀ p : FsPath, is_supported_image p = true ↔
      ∃ s, p.ext = some s ∧
        (asciiLower s = "jpg" ∨ asciiLower s = "jpeg" ∨
         asciiLower s = "png")) ∧
    (∀ (entries : List (Except String DirEntry)) (p : FsPath),
      p ∈ (scanWalk entries).1 ↔
        ∃ e : DirEntry, Except.ok e ∈ entries ∧ e.isFile = true ∧
          is_supported_image e.path = true ∧ e.path = p) :=
  ⟨is_supported_image_iff, scanWalk_mem⟩

/-- Witness for C2 at concrete inputs: `PnG` accepted, `txt` and
extension-less rejected, and a two-entry scan keeping exactly the
supported regular file. -/
theorem C2_scanner_filter_witness :
    (is_supported_image ⟨"b.PnG", some "PnG"⟩ = true ↔
      ∃ s, (some "PnG" : Option String) = some s ∧
        (asciiLower s = "jpg" ∨ asciiLower s = "jpeg" ∨
         asciiLower s = "png")) ∧
    ((⟨"c.txt", some "txt"⟩ : FsPath) ∈ (scanWalk sampleEntries).1 ↔
      ∃ e : DirEntry,
        Except.ok e ∈ sampleEntries ∧ e.isFile = true ∧
        is_supported_image e.path = true ∧
        e.path = ⟨"c.txt", some "txt"⟩) :=
  ⟨C2_scanner_filter.1 ⟨"b.PnG", some "PnG"⟩,
   C2_scanner_filter.2 sampleEntries ⟨"c.txt", some "txt"⟩⟩

/-- C3: at original size 1,000,000 and new size 600,000 the savings
percent is exactly 40 and the per-file loop adds exactly 400,000 to the
running total. -/
theorem C3_savings_example :
    savings_percent 1000000 600000 = 40 ∧
    ∀ (t : Int) (log : List LogLine) (p : FsPath) (o : CompressOutcome),
      o.result = .ok ⟨1000000, 600000⟩ →
      (loopStep (t, log) (p, o)).1 = t + 400000 := by
  constructor
  · norm_num [savings_percent]
  · intro t log p o h
    unfold loopStep
    rw [h]
    norm_num

/-- Witness for C3 at a concrete loop state and outcome. -/
theorem C3_savings_example_witness :
    savings_percent 1000000 600000 = 40 ∧
    (loopStep (3, []) (⟨"a.jpg", some "jpg"⟩,
      ⟨.ok ⟨1000000, 600000⟩, none, none⟩)).1 = 3 + 400000 :=
  ⟨C3_savings_example.1,
   C3_savings_example.2 3 [] ⟨"a.jpg", some "jpg"⟩
     ⟨.ok ⟨1000000, 600000⟩, none, none⟩ rfl⟩

/-- C4: the final status is the "increased" message with the absolute
value of the total in MB exactly when the total is negative, and the
net-saved message otherwise; and a completed run's posted final status
is `final_status` of its total (or omitted on the zero-files return). -/
theorem C4_final_status :
    (∀ ts : Int, final_status ts =
      if ts < 0 then .increased (bytes_to_mb ts.natAbs)
      else .saved (bytes_to_mb ts.toNat)) ∧
    (∀ (w : World) (q : Nat) (r : RunResult),
      process_folder w q = .ok r →
      r.finalStatus = none ∨
      r.finalStatus = some (final_status r.totalSaved)) := by
  constructor
  · intro ts
    unfold final_status
    by_cases h : 0 ≤ ts
    · rw [if_pos h, if_neg (not_lt.mpr h)]
    · rw [if_neg h, if_pos (not_le.mp h)]
      have h2 : (-ts).toNat = ts.natAbs := by omega
      rw [h2]
  · intro w q r h
    rw [process_folder_eq] at h
    by_cases hre : w.rootExists = false
    · rw [if_pos hre] at h
      simp at h
    rw [if_neg hre] at h
    by_cases hrd : w.rootIsDir = false
    · rw [if_pos hrd] at h
      simp at h
    rw [if_neg hrd] at h
    by_cases h0 : (scanFiles w).length = 0
    · rw [if_pos h0] at h
      injection h with h2
      subst h2
      exact Or.inl rfl
    · rw [if_neg h0] at h
      injection h with h2
      subst h2
      exact Or.inr rfl

/-- Witness for C4 on the sample run. -/
theorem C4_final_status_witness :
    final_status (-7) =
      (if (-7 : Int) < 0 then
        FinalStatus.increased (bytes_to_mb (Int.natAbs (-7)))
      else FinalStatus.saved (bytes_to_mb (Int.toNat (-7)))) ∧
    (sampleRun.finalStatus = none ∨
     sampleRun.finalStatus = some (final_status sampleRun.totalSaved)) :=
  ⟨C4_final_status.1 (-7),
   C4_final_status.2 sampleWorld 80 sampleRun (by rfl)⟩

/-- C5: every per-file contribution is a saturating subtraction, so the
running total starting from 0 is non-negative after any number of
iterations; consequently no completed run ever posts the "increased"
final status. -/
theorem C5_total_saved_nonneg :
    (∀ (outcomes : List (FsPath × CompressOutcome)) (log : List LogLine)
       (n : Nat), 0 ≤ (List.foldl loopStep (0, log) (outcomes.take n)).1) ∧
    (∀ (w : World) (q : Nat) (r : RunResult),
      process_folder w q = .ok r →
      ∀ mb, r.finalStatus ≠ some (.increased mb)) := by
  constructor
  · intro outcomes log n
    exact foldl_loopStep_fst_le (outcomes.take n) (0, log)
  · intro w q r h mb
    rw [process_folder_eq] at h
    by_cases hre : w.rootExists = false
    · rw [if_pos hre] at h
      simp at h
    rw [if_neg hre] at h
    by_cases hrd : w.rootIsDir = false
    · rw [if_pos hrd] at h
      simp at h
    rw [if_neg hrd] at h
    by_cases h0 : (scanFiles w).length = 0
    · rw [if_pos h0] at h
      injection h with h2
      subst h2
      simp [zeroRun]
    · rw [if_neg h0] at h
      injection h with h2
      subst h2
      intro hc
      have h1 : (0 : Int) ≤ (runFold w q).1 :=
        foldl_loopStep_fst_le (runOutcomes w q) (0, scanLog w)
      simp only [mainRun, Option.some.injEq] at hc
      unfold final_status at hc
      rw [if_pos h1] at hc
      cases hc

/-- Witness for C5: a one-file prefix and the sample run. -/
theorem C5_total_saved_nonneg_witness :
    0 ≤ (List.foldl loopStep (0, [])
      ([(⟨"a.jpg", some "jpg"⟩, ⟨.ok ⟨5, 9⟩, none, none⟩)].take 1)).1 ∧
    sampleRun.finalStatus ≠ some (.increased 3) :=
  ⟨C5_total_saved_nonneg.1 _ [] 1,
   C5_total_saved_nonneg.2 sampleWorld 80 sampleRun (by rfl) 3⟩

/-- World whose selected root path does not exist. -/
def badWorld : World :=
  { rootExists := false, rootIsDir := false, entries := [],
    fileEnv := fun _ => jpegSampleEnv }

/-- World that is an existing directory with no entries at all. -/
def emptyWorld : World :=
  { rootExists := true, rootIsDir := true, entries := [],
    fileEnv := fun _ => jpegSampleEnv }

/-- World with one unreadable entry followed by one good JPEG file. -/
def errWorld : World :=
  { rootExists := true, rootIsDir := true,
    entries := [.error "denied", .ok ⟨true, ⟨"a.jpg", some "jpg"⟩⟩],
    fileEnv := fun _ => jpegSampleEnv }

/-- C6: `process_folder` returns `Ok` exactly when the root exists and
is a directory; the non-existence error and the not-a-directory error
each occur exactly in their own case.  In the source both checks precede
the scan, so the fatal return happens before any entry is read or any
file modified (the model's error branches carry no run effects at
all). -/
theorem C6_root_checks (w : World) (q : Nat) :
    ((∃ r, process_folder w q = .ok r) ↔
      (w.rootExists = true ∧ w.rootIsDir = true)) ∧
    (process_folder w q = .error .notFound ↔ w.rootExists = false) ∧
    (process_folder w q = .error .notDir ↔
      (w.rootExists = true ∧ w.rootIsDir = false)) := by
  rw [process_folder_eq]
  cases hre : w.rootExists with
  | false => simp
  | true =>
    cases hrd : w.rootIsDir with
    | false => simp
    | true =>
      by_cases h0 : (scanFiles w).length = 0 <;> simp [h0]

/-- Witness for C6 on a non-existent root. -/
theorem C6_root_checks_witness :
    ((∃ r, process_folder badWorld 80 = .ok r) ↔
      (badWorld.rootExists = true ∧ badWorld.rootIsDir = true)) ∧
    (process_folder badWorld 80 = .error .notFound ↔
      badWorld.rootExists = false) ∧
    (process_folder badWorld 80 = .error .notDir ↔
      (badWorld.rootExists = true ∧ badWorld.rootIsDir = false)) :=
  C6_root_checks badWorld 80

/-- C7: when `compress_image` fails on a file, that loop iteration
leaves the running total exactly as it was and appends one failure line
carrying the file's display path and the reason; and the loop is a total
fold that appends exactly one log line per file, so it always continues
through the whole list. -/
theorem C7_per_file_failure :
    (∀ (t : Int) (log : List LogLine) (p : FsPath) (o : CompressOutcome)
       (e : CompressError), o.result = .error e →
       loopStep (t, log) (p, o) = (t, log ++ [.failure p.display e])) ∧
    (∀ (l : List (FsPath × CompressOutcome)) (t : Int)
       (log : List LogLine),
       (List.foldl loopStep (t, log) l).2.length = log.length + l.length) := by
  constructor
  · intro t log p o e h
    unfold loopStep
    rw [h]
  · intro l t log
    exact foldl_loopStep_log_length l (t, log)

/-- Witness for C7 at a concrete failing file. -/
theorem C7_per_file_failure_witness :
    loopStep (5, []) (⟨"x.png", some "png"⟩,
      ⟨.error .decodeFailed, none, none⟩) =
      (5, [] ++ [.failure "x.png" .decodeFailed]) ∧
    (List.foldl loopStep (5, []) [(⟨"x.png", some "png"⟩,
      ⟨.error .decodeFailed, none, none⟩)]).2.length =
      List.length ([] : List LogLine) +
        List.length [((⟨"x.png", some "png"⟩ : FsPath),
          (⟨.error .decodeFailed, none, none⟩ : CompressOutcome))] :=
  ⟨C7_per_file_failure.1 5 [] ⟨"x.png", some "png"⟩
     ⟨.error .decodeFailed, none, none⟩ .decodeFailed rfl,
   C7_per_file_failure.2 [(⟨"x.png", some "png"⟩,
     ⟨.error .decodeFailed, none, none⟩)] 5 []⟩

/-- C8: with an existing directory and an empty candidate list, the run
returns `Ok` with total 0, no file compressed, and the busy flag
cleared. -/
theorem C8_zero_files (w : World) (q : Nat)
    (hre : w.rootExists = true) (hrd : w.rootIsDir = true)
    (h0 : scanFiles w = []) :
    process_folder w q = .ok (zeroRun w) ∧
    (zeroRun w).totalReported = 0 ∧ (zeroRun w).outcomes = [] ∧
    (zeroRun w).busyCleared = true := by
  refine ⟨?_, rfl, rfl, rfl⟩
  rw [process_folder_eq]
  rw [if_neg (by simp [hre]), if_neg (by simp [hrd]),
    if_pos (by simp [h0])]

/-- Witness for C8 on the empty directory. -/
theorem C8_zero_files_witness :
    process_folder emptyWorld 80 = .ok (zeroRun emptyWorld) ∧
    (zeroRun emptyWorld).totalReported = 0 ∧
    (zeroRun emptyWorld).outcomes = [] ∧
    (zeroRun emptyWorld).busyCleared = true :=
  C8_zero_files emptyWorld 80 rfl rfl rfl

/-- C9: `savings_percent` returns 0 outright when the original size is
0, and performs the division only in the non-zero branch. -/
theorem C9_savings_guard :
    (∀ after, savings_percent 0 after = 0) ∧
    (∀ before after, before ≠ 0 →
      savings_percent before after =
        100 * ((before : ℚ) - (after : ℚ)) / (before : ℚ)) := by
  constructor
  · intro a
    unfold savings_percent
    rw [if_pos rfl]
  · intro b a h
    unfold savings_percent
    rw [if_neg h]

/-- Witness for C9 at original sizes 0 and 4. -/
theorem C9_savings_guard_witness :
    savings_percent 0 123 = 0 ∧
    savings_percent 4 1 =
      100 * (((4 : Nat) : ℚ) - ((1 : Nat) : ℚ)) / ((4 : Nat) : ℚ) :=
  ⟨C9_savings_guard.1 123, C9_savings_guard.2 4 1 (by decide)⟩

/-- C10: the scan log records exactly one warning line per traversal
error, removing an error entry never changes the candidate list (the
scan continues past it), and a run over an existing directory still
returns `Ok` and compresses every candidate, traversal errors
notwithstanding. -/
theorem C10_walk_errors :
    (∀ entries : List (Except String DirEntry),
      (scanWalk entries).2 = entries.filterMap (fun x =>
        match x with
        | .error m => some (LogLine.walkError m)
        | .ok _ => none)) ∧
    (∀ (pre : List (Except String DirEntry)) (m : String)
       (post : List (Except String DirEntry)),
      (scanWalk (pre ++ .error m :: post)).1 =
        (scanWalk (pre ++ post)).1) ∧
    (∀ (w : World) (q : Nat), w.rootExists = true → w.rootIsDir = true →
      ∃ r, process_folder w q = .ok r ∧
        r.outcomes.length = (scanFiles w).length ∧
        r.busyCleared = true) := by
  refine ⟨scanWalk_log, scanWalk_skip_error, ?_⟩
  intro w q hre hrd
  rw [process_folder_eq, if_neg (by simp [hre]), if_neg (by simp [hrd])]
  by_cases h0 : (scanFiles w).length = 0
  · rw [if_pos h0]
    exact ⟨zeroRun w, rfl, by simpa [zeroRun] using h0.symm, rfl⟩
  · rw [if_neg h0]
    exact ⟨mainRun w q, rfl, by simp [mainRun, runOutcomes], rfl⟩

/-- Witness for C10 on a scan with one unreadable entry. -/
theorem C10_walk_errors_witness :
    ((scanWalk errWorld.entries).2 = errWorld.entries.filterMap (fun x =>
      match x with
      | .error m => some (LogLine.walkError m)
      | .ok _ => none)) ∧
    ((scanWalk ([] ++ .error "denied" ::
        [Except.ok ⟨true, ⟨"a.jpg", some "jpg"⟩⟩])).1 =
      (scanWalk ([] ++ [Except.ok ⟨true, ⟨"a.jpg", some "jpg"⟩⟩])).1) ∧
    (∃ r, process_folder errWorld 80 = .ok r ∧
      r.outcomes.length = (scanFiles errWorld).length ∧
      r.busyCleared = true) :=
  ⟨C10_walk_errors.1 errWorld.entries,
   C10_walk_errors.2.1 [] "denied"
     [Except.ok ⟨true, ⟨"a.jpg", some "jpg"⟩⟩],
   C10_walk_errors.2.2 errWorld 80 rfl rfl⟩

end CompressImg
